/-
Verification of the orchestration core of the ai-recruiter repository
(workflow engine, session state store, priority job queue, queue monitor),
shallowly embedded in Lean 4.

Conventions of the embedding:
  * machine time instants (datetime values, epoch seconds) are `Int`;
  * Python `Optional[T]` is `Option T`; a raised exception is the `error`
    branch of `Except String _`;
  * external effects (Redis broker, DynamoDB table, Selenium scrapers,
    the database sink) are modelled as explicit stores passed through the
    functions, or as oracle functions giving the outcome of each call.
-/
import Mathlib

/-! ## Priority job queue (src/utils/queue.py)

The Redis/RQ broker owns job records; `JobManager` issues commands against
it.  We model the broker as a list of job records.  RQ facts used by the
embedding: a queue's `FinishedJobRegistry` holds exactly the jobs of that
queue that ended with status `finished` (failed jobs live in the separate
`FailedJobRegistry`); `job.cancel()` moves a job to status `cancelled`;
`Job.fetch` of an unknown id raises (modelled as `none`). -/

/-- The three priority lanes created in queue.py
(`high_queue`, `default_queue`, `low_queue`). -/
inductive Lane where
  | high
  | default
  | low
deriving DecidableEq, Repr

/-- RQ job lifecycle statuses used by the module. -/
inductive JobStatus where
  | queued
  | started
  | finished
  | failed
  | cancelled
deriving DecidableEq, Repr

/-- One job record owned by the broker. -/
structure Job where
  id : String
  lane : Lane
  status : JobStatus
  created_at : Int
  started_at : Option Int
  ended_at : Option Int
deriving DecidableEq, Repr

/-- `Job.fetch(job_id, connection=redis_conn)`: look the id up in the broker. -/
def fetchJob (store : List Job) (id : String) : Option Job :=
  store.find? (fun j => j.id == id)

/-- Lane selection of `JobManager.enqueue_job`:
`{'high': high_queue, 'default': default_queue, 'low': low_queue}.get(priority, default_queue)`. -/
def laneFor (priority : String) : Lane :=
  if priority == "high" then Lane.high
  else if priority == "default" then Lane.default
  else if priority == "low" then Lane.low
  else Lane.default

/-- `JobManager.enqueue_job`: build a fresh queued job on the selected lane
and hand it to the broker.  Returns the job (as the Python function does)
and the broker state. -/
def enqueueJob (store : List Job) (priority : String) (id : String)
    (now : Int) : Job × List Job :=
  let j : Job :=
    { id := id, lane := laneFor priority, status := JobStatus.queued,
      created_at := now, started_at := none, ended_at := none }
  (j, store ++ [j])

/-- Broker-side effect of `job.cancel()` on the job with the given id. -/
def setStatus (store : List Job) (id : String) (st : JobStatus) : List Job :=
  store.map (fun j => if j.id == id then { j with status := st } else j)

/-- `JobManager.cancel_job`: fetch the job; cancel it and return `True`
only when its status is `queued`; any other status (or a fetch failure,
caught by the `except` clause) returns `False` and leaves the broker
untouched. -/
def cancelJob (store : List Job) (id : String) : Bool × List Job :=
  match fetchJob store id with
  | none => (false, store)
  | some j =>
    if j.status = JobStatus.queued then
      (true, setStatus store id JobStatus.cancelled)
    else
      (false, store)

/-- `datetime.now() - timedelta(days=days)`, in epoch seconds. -/
def cleanThreshold (now : Int) (days : Int) : Int :=
  now - days * 86400

/-- A job is deleted by `JobManager.clean_old_jobs` iff it sits in a
`FinishedJobRegistry` (status `finished`) and `job.ended_at < threshold`. -/
def shouldClean (thr : Int) (j : Job) : Bool :=
  decide (j.status = JobStatus.finished) &&
    (match j.ended_at with
     | some t => decide (t < thr)
     | none => false)

/-- The deletion loop of `clean_old_jobs`: walk the records, delete the
ones selected by `shouldClean`, count the deletions. -/
def cleanOldJobsAux (thr : Int) : List Job → Nat × List Job
  | [] => (0, [])
  | j :: rest =>
    let r := cleanOldJobsAux thr rest
    if shouldClean thr j then (r.1 + 1, r.2) else (r.1, j :: r.2)

/-- `JobManager.clean_old_jobs(days)`: returns the number of deleted jobs
and the remaining broker state. -/
def cleanOldJobs (store : List Job) (now : Int) (days : Int) : Nat × List Job :=
  cleanOldJobsAux (cleanThreshold now days) store

/-! ## Queue monitor (src/utils/queue_monitor.py) -/

/-- RQ worker states distinguished by the monitor. -/
inductive WorkerState where
  | busy
  | idle
deriving DecidableEq, Repr

/-- The part of `worker.current_job` read by the monitor. -/
structure CurrentJob where
  id : String
  started_at : Int
deriving DecidableEq, Repr

/-- The part of an RQ worker read by `check_worker_health`. -/
structure Worker where
  name : String
  state : WorkerState
  current_job : Option CurrentJob
  last_heartbeat : Option Int
deriving DecidableEq, Repr

/-- A health issue appended to `issues[queue_name]`; the constructors carry
exactly the data interpolated into the two warning strings. -/
inductive Issue where
  | stuck (workerName : String) (jobId : String) (duration : Int)
  | unresponsive (workerName : String) (age : Int)
deriving DecidableEq, Repr

/-- The fixed heartbeat staleness threshold (`300  # 5 minutes`). -/
def heartbeatStaleness : Int := 300

/-- The issues contributed by one worker in one pass of the inner loop of
`check_worker_health`: a stuck report when the worker is busy on a job
whose duration exceeds `settings.JOB_TIMEOUT`, and an unresponsive report
when its last heartbeat is older than 300 seconds. -/
def workerIssues (now : Int) (jobTimeout : Int) (w : Worker) : List Issue :=
  (if w.state = WorkerState.busy then
    match w.current_job with
    | some cj =>
      if jobTimeout < now - cj.started_at then
        [Issue.stuck w.name cj.id (now - cj.started_at)]
      else []
    | none => []
  else []) ++
  (match w.last_heartbeat with
   | some hb =>
     if heartbeatStaleness < now - hb then
       [Issue.unresponsive w.name (now - hb)]
     else []
   | none => [])

/-- `QueueMonitor.check_worker_health`: per lane, collect the issues of the
workers serving that lane (`Worker.all(queue=queue)` is the `workers`
argument).  The function only builds the report; it never mutates a worker
or a job. -/
def checkWorkerHealth (workers : Lane → List Worker) (now : Int)
    (jobTimeout : Int) : Lane → List Issue :=
  fun l => (workers l).flatMap (workerIssues now jobTimeout)

/-! ## Session state store
(src/infrastructure/state/manager.py, src/infrastructure/models/dynamo_models.py)

The DynamoDB table is keyed by `(session_id, timestamp)`.  The `timestamp`
sort key is the ISO string of `datetime.now()` taken inside
`create_state_put_params`; instants are totally ordered, so we model the
key as an `Int`.  The serialized `str(state)` payload is modelled as an
opaque `String`.  `table.put_item` has insert-or-replace semantics: an
item whose full primary key already exists is replaced. -/

/-- One persisted row of the state table (`DynamoStateItem`). -/
structure DynamoStateItem where
  session_id : String
  timestamp : Int
  state : String
  ttl : Int
deriving DecidableEq, Repr

/-- Two rows collide in DynamoDB iff they agree on the full primary key
`(session_id, timestamp)`. -/
def sameKey (a b : DynamoStateItem) : Bool :=
  a.session_id == b.session_id && a.timestamp == b.timestamp

/-- `table.put_item(**put_params)`: replace the row with the same primary
key when one exists, otherwise insert a new row. -/
def putItem (table : List DynamoStateItem) (item : DynamoStateItem) :
    List DynamoStateItem :=
  if table.any (fun it => sameKey it item) then
    table.map (fun it => if sameKey it item then item else it)
  else
    table ++ [item]

/-- `create_state_put_params(session_id, state, ttl)`: the row written by
`StateManager.save_state`, stamped with the current clock reading `now`
and defaulting `ttl` to 24 hours from now. -/
def createStatePutParams (session_id : String) (state : String) (now : Int)
    (ttl : Option Int) : DynamoStateItem :=
  { session_id := session_id, timestamp := now, state := state,
    ttl := ttl.getD (now + 86400) }

/-- `StateManager.save_state`: build the put parameters and issue the
`put_item`.  `now` is the value `datetime.now()` observed by this call. -/
def saveState (table : List DynamoStateItem) (session_id : String)
    (state : String) (now : Int) (ttl : Option Int) : List DynamoStateItem :=
  putItem table (createStatePutParams session_id state now ttl)

/-! ## Submission validation (src/main.py)

`RecruitmentRequest.is_valid_request` checks
`"github" in self.task_description.lower() and 1 <= self.limit <= 100`
(the two `isinstance` checks always hold for a well-typed request), and
`recruit_developers` answers 400 when the check fails. -/

/-- Character-list prefix test (the base step of Python's `in` on `str`). -/
def startsWithChars : List Char → List Char → Bool
  | [], _ => true
  | _ :: _, [] => false
  | p :: ps, c :: cs => p == c && startsWithChars ps cs

/-- Contiguous-substring test: Python's `needle in haystack` on strings. -/
def containsChars (pat : List Char) : List Char → Bool
  | [] => startsWithChars pat []
  | c :: cs => startsWithChars pat (c :: cs) || containsChars pat cs

/-- `"github" in task_description.lower()`. -/
def containsGithub (s : String) : Bool :=
  containsChars "github".data (s.data.map Char.toLower)

/-- `RecruitmentRequest.is_valid_request`. -/
def is_valid_request (task_description : String) (limit : Int) : Bool :=
  containsGithub task_description &&
    decide (1 ≤ limit) && decide (limit ≤ 100)

/-- Outcome of the `/recruit` endpoint's validation gate. -/
inductive RecruitDecision where
  | accepted
  | rejected400
deriving DecidableEq, Repr

/-- The validation gate of `recruit_developers`: raise HTTP 400 when
`is_valid_request` is false, otherwise hand the request to the
coordinator. -/
def recruitDevelopers (task_description : String) (limit : Int) :
    RecruitDecision :=
  if is_valid_request task_description limit then RecruitDecision.accepted
  else RecruitDecision.rejected400

/-! ## Merged-profile pipeline, new coordinator (src/agents/new_coordinator.py,
src/agents/linkedin_agent.py)

`_merge_results` consumes the dictionaries produced by `GitHubAgent.process`
(`github_result`) and `LinkedInAgent.process` (`linkedin_result`).  The
dictionaries are modelled as structures carrying exactly the keys the merge
reads; an entry of `linkedin_result["profiles"]` carries an `error` key
exactly when its scrape raised (`error = some msg` in the model). -/

/-- The `social_urls` dictionary of a GitHub profile entry; a key is in
the dictionary iff the field is `some`. -/
structure SocialUrls where
  linkedin : Option String
  twitter : Option String
  website : Option String
deriving DecidableEq, Repr

/-- One entry of `github_result["profiles"]`. -/
structure GHProfileEntry where
  github_username : String
  github_url : String
  contributions : Int
  email : Option String
  name : Option String
  social_urls : SocialUrls
deriving DecidableEq, Repr

/-- The `github_result` dictionary as read by `_merge_results`. -/
structure GithubResult where
  repository : String
  profiles : List GHProfileEntry
deriving DecidableEq, Repr

/-- The structured experience block built by
`LinkedInAgent._extract_experience`. -/
structure Experience where
  years_of_experience : Option Int
  current_position : Option String
  current_company : Option String
deriving DecidableEq, Repr

/-- One entry of `linkedin_result["profiles"]`: either a scraped profile
(`error = none`) or the error record appended by the `except` branch of
`LinkedInAgent.process` (`error = some msg`, other fields unused). -/
structure LIProfileEntry where
  linkedin_url : String
  name : Option String
  current_position : Option String
  company : Option String
  location : Option String
  experience : Experience
  error : Option String
deriving DecidableEq, Repr

/-- The `linkedin_result` dictionary produced by `LinkedInAgent.process`. -/
structure LinkedInResult where
  total_profiles : Nat
  successful_scrapes : Nat
  profiles : List LIProfileEntry
deriving DecidableEq, Repr

/-- The `github_info` block of a merged profile. -/
structure GitHubInfo where
  username : String
  url : String
  contributions : Int
  email : Option String
deriving DecidableEq, Repr

/-- The `linkedin_info` block of a merged profile. -/
structure LinkedInInfo where
  url : String
  current_position : Option String
  company : Option String
  location : Option String
  experience : Experience
deriving DecidableEq, Repr

/-- One entry of the merged `profiles` list. -/
structure MergedProfile where
  github_info : GitHubInfo
  name : Option String
  social_urls : SocialUrls
  linkedin_info : Option LinkedInInfo
deriving DecidableEq, Repr

/-- The dictionary returned by `CoordinatorAgent._merge_results`. -/
structure MergedResult where
  repository : String
  total_profiles : Nat
  profiles_with_linkedin : Nat
  profiles : List MergedProfile
deriving DecidableEq, Repr

/-- The profiles list of the optional `linkedin_result`. -/
def liProfiles : Option LinkedInResult → List LIProfileEntry
  | none => []
  | some r => r.profiles

/-- Lookup in `linkedin_profiles_map`, the dict comprehension
`{p["linkedin_url"]: p for p in linkedin_result["profiles"] if "error" not in p}`:
among the error-free entries, the LAST one with the given url wins
(later comprehension iterations overwrite earlier ones). -/
def linkedinProfilesMap (l : Option LinkedInResult) (url : String) :
    Option LIProfileEntry :=
  ((liProfiles l).filter (fun p => p.error.isNone)).reverse.find?
    (fun p => p.linkedin_url == url)

/-- The body of the merge loop of `_merge_results` for one GitHub profile:
copy the GitHub attributes, then attach `linkedin_info` exactly when the
profile carries a linkedin url that is a key of `linkedin_profiles_map`. -/
def mergeOne (l : Option LinkedInResult) (gp : GHProfileEntry) :
    MergedProfile :=
  { github_info :=
      { username := gp.github_username, url := gp.github_url,
        contributions := gp.contributions, email := gp.email },
    name := gp.name,
    social_urls := gp.social_urls,
    linkedin_info :=
      match gp.social_urls.linkedin with
      | none => none
      | some url =>
        match linkedinProfilesMap l url with
        | none => none
        | some p =>
          some { url := url, current_position := p.current_position,
                 company := p.company, location := p.location,
                 experience := p.experience } }

/-- `CoordinatorAgent._merge_results`. -/
def mergeResults (g : GithubResult) (l : Option LinkedInResult) :
    MergedResult :=
  let merged := g.profiles.map (mergeOne l)
  { repository := g.repository,
    total_profiles := merged.length,
    profiles_with_linkedin :=
      (merged.filter (fun p => p.linkedin_info.isSome)).length,
    profiles := merged }

/-! ## Old coordinator pipeline (src/agents/coordinator.py,
src/agents/data_processor.py, src/scrapers/linkedin_scraper.py)

`execute_task` schedules one LinkedIn fetch per GitHub contributor — the
direct-url fetch `_get_linkedin_from_url` when the contributor's
`linkedin_url` is truthy (non-None, non-empty), otherwise the fallback
`linkedin_scraper.find_profile(name or username)` — runs them with
`asyncio.gather`, and zips the outcomes with the contributors in
`DataProcessor.process_profiles`.

Scraper calls are modelled by oracles returning `Except String (Option
LinkedInProfile)`:
  * `direct url` is the outcome of `linkedin_scraper.get_profile_from_url(url)`,
    an `error` being any exception it raises (e.g. the re-raised login
    timeout);
  * `search name` is the outcome of `linkedin_scraper.find_profile(name)`.
    `find_profile` wraps its whole search body in `try/except Exception:
    return None`, so search failures surface as `ok none`; an `error`
    models the one exception that escapes it — `self.login()` is called
    before the `try` block and re-raises its `TimeoutException`. -/

/-- `GitHubContributor` (src/storage/models.py); the activity-metrics and
last-active fields are never read by the coordinator pipeline and are
omitted. -/
structure GitHubContributor where
  username : String
  contributions : Int
  repos : List String
  email : Option String
  name : Option String
  linkedin_url : Option String
  is_maintainer : Bool
  role : Option String
deriving DecidableEq, Repr

/-- `LinkedInProfile` (src/storage/models.py); the list-valued rsum fields
default to empty and are never read by the pipeline, and are omitted. -/
structure LinkedInProfile where
  profile_url : String
  name : String
  current_position : Option String
  company : Option String
  location : Option String
deriving DecidableEq, Repr

/-- `DeveloperProfile` (src/storage/models.py); the `created_at` /
`updated_at` wall-clock stamps are omitted. -/
structure DeveloperProfile where
  github_data : GitHubContributor
  linkedin_data : Option LinkedInProfile
deriving DecidableEq, Repr

/-- Python truthiness of an optional string: `None` and `""` are falsy. -/
def truthyStr : Option String → Bool
  | none => false
  | some s => decide (s ≠ "")

/-- `github_profile.name or github_profile.username`. -/
def nameOrUsername (g : GitHubContributor) : String :=
  match g.name with
  | some n => if n = "" then g.username else n
  | none => g.username

/-- The two per-contributor scheduling paths of `execute_task`. -/
inductive FetchTask where
  | direct (url : String)
  | fallback (name : String)
deriving DecidableEq, Repr

/-- The branch `if github_profile.linkedin_url: ... else: ...` of the
scheduling loop, choosing the task appended for one contributor. -/
def scheduleTask (g : GitHubContributor) : FetchTask :=
  match g.linkedin_url with
  | some url =>
    if url = "" then FetchTask.fallback (nameOrUsername g)
    else FetchTask.direct url
  | none => FetchTask.fallback (nameOrUsername g)

/-- The `linkedin_tasks` list built by the scheduling loop, in
contributor order. -/
def linkedinTasks (gs : List GitHubContributor) : List FetchTask :=
  gs.map scheduleTask

/-- `CoordinatorAgent._get_linkedin_from_url`: run the direct fetch and
degrade ANY raised exception to `None`. -/
def getLinkedinFromUrl
    (direct : String → Except String (Option LinkedInProfile))
    (url : String) : Option LinkedInProfile :=
  match direct url with
  | Except.ok p => p
  | Except.error _ => none

/-- Run one scheduled task: the direct path cannot raise (its wrapper
catches), the fallback path propagates whatever `find_profile` raises. -/
def runTask (direct search : String → Except String (Option LinkedInProfile)) :
    FetchTask → Except String (Option LinkedInProfile)
  | FetchTask.direct url => Except.ok (getLinkedinFromUrl direct url)
  | FetchTask.fallback nm => search nm

/-- `asyncio.gather(*linkedin_tasks)` without `return_exceptions`: the
whole gather raises as soon as any task raises, otherwise yields all
results in task order. -/
def gatherAll :
    List (Except String (Option LinkedInProfile)) →
      Except String (List (Option LinkedInProfile))
  | [] => Except.ok []
  | r :: rs =>
    match r with
    | Except.error e => Except.error e
    | Except.ok v =>
      match gatherAll rs with
      | Except.error e => Except.error e
      | Except.ok vs => Except.ok (v :: vs)

/-- `DataProcessor.process_profiles`: zip contributors with fetched
profiles (the zip stops at the shorter list), build a `DeveloperProfile`
for each pair and persist it; a failure of the database save (`saveOk`
oracle false) is caught and that profile skipped (`continue`). -/
def processProfiles (saveOk : DeveloperProfile → Bool) :
    List GitHubContributor → List (Option LinkedInProfile) →
      List DeveloperProfile
  | [], _ => []
  | _ :: _, [] => []
  | g :: gs, l :: ls =>
    let p : DeveloperProfile := { github_data := g, linkedin_data := l }
    if saveOk p then p :: processProfiles saveOk gs ls
    else processProfiles saveOk gs ls

/-- The LinkedIn-enrichment and merge phase of
`CoordinatorAgent.execute_task` (after the contributors have been
fetched): schedule a fetch per contributor, gather, process.  An
exception propagating out of the gather aborts the task. -/
def executeTaskLinkedInPhase
    (direct search : String → Except String (Option LinkedInProfile))
    (saveOk : DeveloperProfile → Bool)
    (gs : List GitHubContributor) : Except String (List DeveloperProfile) :=
  match gatherAll ((linkedinTasks gs).map (runTask direct search)) with
  | Except.error e => Except.error e
  | Except.ok ls => Except.ok (processProfiles saveOk gs ls)

/-- The value attached to a contributor when its own fetch did not abort
the batch: the direct path degrades errors to `none`; a successful
fallback returns its optional profile. -/
def taskValue (direct search : String → Except String (Option LinkedInProfile))
    (g : GitHubContributor) : Option LinkedInProfile :=
  match runTask direct search (scheduleTask g) with
  | Except.ok v => v
  | Except.error _ => none

/-! ## Concrete records used to evaluate the embedding -/

/-- A contributor whose GitHub profile carries a LinkedIn url. -/
def cGhA : GitHubContributor :=
  { username := "alice", contributions := 42, repos := ["acme/widget"],
    email := none, name := some "Alice A",
    linkedin_url := some "https://www.linkedin.com/in/alice",
    is_maintainer := false, role := none }

/-- A contributor without any LinkedIn url (fallback path). -/
def cGhB : GitHubContributor :=
  { username := "bob", contributions := 7, repos := ["acme/widget"],
    email := none, name := some "Bob B", linkedin_url := none,
    is_maintainer := false, role := none }

/-- A contributor whose GitHub profile carries Bob's LinkedIn url. -/
def cGhB2 : GitHubContributor :=
  { username := "bob", contributions := 7, repos := ["acme/widget"],
    email := none, name := some "Bob B",
    linkedin_url := some "https://www.linkedin.com/in/bob",
    is_maintainer := false, role := none }

/-- Alice's scraped LinkedIn profile. -/
def cLiA : LinkedInProfile :=
  { profile_url := "https://www.linkedin.com/in/alice", name := "Alice A",
    current_position := some "Engineer", company := some "Acme",
    location := none }

/-- Bob's scraped LinkedIn profile. -/
def cLiB : LinkedInProfile :=
  { profile_url := "https://www.linkedin.com/in/bob", name := "Bob B",
    current_position := some "Manager", company := some "Acme",
    location := none }

/-- A GitHub profile entry (new-coordinator pipeline) with a linkedin url. -/
def cGpA : GHProfileEntry :=
  { github_username := "alice", github_url := "https://github.com/alice",
    contributions := 42, email := none, name := some "Alice A",
    social_urls := { linkedin := some "https://www.linkedin.com/in/alice",
                     twitter := none, website := none } }

/-- An error-free LinkedIn result entry for Alice. -/
def cLiEntryA : LIProfileEntry :=
  { linkedin_url := "https://www.linkedin.com/in/alice",
    name := some "Alice A", current_position := some "Engineer",
    company := some "Acme", location := none,
    experience := { years_of_experience := none,
                    current_position := some "Engineer",
                    current_company := some "Acme" },
    error := none }

/-- A one-contributor GitHub result. -/
def cGhRes : GithubResult :=
  { repository := "acme/widget", profiles := [cGpA] }

/-- A one-profile LinkedIn result. -/
def cLiRes : LinkedInResult :=
  { total_profiles := 1, successful_scrapes := 1, profiles := [cLiEntryA] }

/-- The linkedin block the merge attaches to `cGpA`. -/
def cInfoA : LinkedInInfo :=
  { url := "https://www.linkedin.com/in/alice",
    current_position := some "Engineer", company := some "Acme",
    location := none,
    experience := { years_of_experience := none,
                    current_position := some "Engineer",
                    current_company := some "Acme" } }

/-- The merged profile the new coordinator produces for `cGpA`. -/
def cMpA : MergedProfile := mergeOne (some cLiRes) cGpA

/-- An old failed job (ten days past, failed status). -/
def cFailedJob : Job :=
  { id := "jf", lane := Lane.high, status := JobStatus.failed,
    created_at := 0, started_at := some 0, ended_at := some 0 }

/-- An old finished job. -/
def cFinishedJob : Job :=
  { id := "jd", lane := Lane.low, status := JobStatus.finished,
    created_at := 0, started_at := some 0, ended_at := some 0 }

/-- An old queued job that cleanup must keep. -/
def cQueuedJob : Job :=
  { id := "jq", lane := Lane.default, status := JobStatus.queued,
    created_at := 0, started_at := none, ended_at := none }

/-- A busy worker stuck on a long job with a stale heartbeat. -/
def cStuckWorker : Worker :=
  { name := "w1", state := WorkerState.busy,
    current_job := some { id := "j1", started_at := 0 },
    last_heartbeat := some 0 }

/-- A state-store row holding snapshot A at instant 1000. -/
def cItemA : DynamoStateItem :=
  { session_id := "s1", timestamp := 1000, state := "snapshotA",
    ttl := 87400 }

/-! ## Theorems -/

/-- Claim C1: for every GitHub result and every (possibly absent, possibly
error-laden) LinkedIn result, the merged result's `total_profiles` equals
the number of GitHub profiles fetched, and the merged profile list carries
each GitHub profile exactly once, in order (no duplication, no loss),
regardless of how many LinkedIn lookups failed. -/
theorem merge_preserves_primary_entities (g : GithubResult)
    (l : Option LinkedInResult) :
    (mergeResults g l).total_profiles = g.profiles.length ∧
    (mergeResults g l).profiles.map (fun p => p.github_info.username) =
      g.profiles.map (fun p => p.github_username) := by
  constructor
  · simp [mergeResults]
  · simp only [mergeResults, List.map_map]
    exact List.map_congr_left (fun gp _ => rfl)

/-- Claim C4: per contributor, the two scheduling paths of `execute_task` are
mutually exclusive and exhaustive: the fallback name-based lookup is
scheduled exactly when the contributor carries no truthy LinkedIn url, and
a direct-url fetch is scheduled exactly when it does; the task list has
one entry per contributor, in order. -/
theorem scheduling_paths_mutually_exclusive (gs : List GitHubContributor)
    (g : GitHubContributor) :
    (truthyStr g.linkedin_url = false ↔
      scheduleTask g = FetchTask.fallback (nameOrUsername g)) ∧
    (truthyStr g.linkedin_url = true ↔
      ∃ url, g.linkedin_url = some url ∧
        scheduleTask g = FetchTask.direct url) ∧
    linkedinTasks gs = gs.map scheduleTask := by
  refine ⟨?_, ?_, rfl⟩
  · cases hurl : g.linkedin_url with
    | none => simp [truthyStr, scheduleTask, hurl]
    | some url =>
      by_cases hemp : url = ""
      · subst hemp; simp [truthyStr, scheduleTask, hurl]
      · simp [truthyStr, scheduleTask, hurl, hemp]
  · cases hurl : g.linkedin_url with
    | none => simp [truthyStr, scheduleTask, hurl]
    | some url =>
      by_cases hemp : url = ""
      · subst hemp; simp [truthyStr, scheduleTask, hurl]
      · simp [truthyStr, scheduleTask, hurl, hemp]

/-- Claim C4 witness: the contributor `cGhB` (no LinkedIn url) is scheduled on
the fallback path. -/
theorem scheduling_paths_witness :
    scheduleTask cGhB = FetchTask.fallback (nameOrUsername cGhB) :=
  (scheduling_paths_mutually_exclusive [] cGhB).1.mp (by decide)

/-- Claim C10: `enqueue_job` places the job on the lane named by the priority
when it is one of high/default/low, silently places it on the default lane
for any other priority string, and always appends a fresh queued job to
the broker. -/
theorem enqueue_lane_selection (store : List Job) (priority id : String)
    (now : Int) :
    (priority = "high" → laneFor priority = Lane.high) ∧
    (priority = "default" → laneFor priority = Lane.default) ∧
    (priority = "low" → laneFor priority = Lane.low) ∧
    (priority ≠ "high" → priority ≠ "default" → priority ≠ "low" →
      laneFor priority = Lane.default) ∧
    (enqueueJob store priority id now).1.lane = laneFor priority ∧
    (enqueueJob store priority id now).1.status = JobStatus.queued ∧
    (enqueueJob store priority id now).2 =
      store ++ [(enqueueJob store priority id now).1] := by
  refine ⟨?_, ?_, ?_, ?_, rfl, rfl, rfl⟩
  · intro h; subst h; rfl
  · intro h; subst h; rfl
  · intro h; subst h; rfl
  · intro h1 h2 h3
    simp [laneFor, beq_iff_eq, h1, h2, h3]

/-- Claim C10 witness: an unknown priority string lands on the default lane. -/
theorem enqueue_lane_witness : laneFor "urgent" = Lane.default :=
  (enqueue_lane_selection [] "urgent" "job_1" 0).2.2.2.1
    (by decide) (by decide) (by decide)

/-- Fetching after a broker-side status update yields the same record with
the new status. -/
theorem fetchJob_setStatus (store : List Job) (id : String) (j : Job)
    (st : JobStatus) (hfetch : fetchJob store id = some j) :
    fetchJob (setStatus store id st) id = some { j with status := st } := by
  unfold fetchJob setStatus
  rw [List.find?_map]
  have hpred :
      ((fun x : Job => x.id == id) ∘
        fun x : Job => if x.id == id then { x with status := st } else x) =
        fun x : Job => x.id == id := by
    funext x
    by_cases h : (x.id == id) = true
    · simp [Function.comp, h]
    · simp [Function.comp, h]
  rw [hpred]
  unfold fetchJob at hfetch
  rw [hfetch]
  have hid : j.id = id := by simpa using List.find?_some hfetch
  simp [hid]

/-- Claim C7: `cancel_job` on a fetched job cancels it and returns true exactly
when the job is still queued (the broker record moves to `cancelled`); on
a started or finished job it returns false and leaves the broker
unchanged. -/
theorem cancel_only_queued (store : List Job) (id : String) (j : Job)
    (hfetch : fetchJob store id = some j) :
    (j.status = JobStatus.queued →
      cancelJob store id = (true, setStatus store id JobStatus.cancelled) ∧
      fetchJob (cancelJob store id).2 id =
        some { j with status := JobStatus.cancelled }) ∧
    ((j.status = JobStatus.started ∨ j.status = JobStatus.finished) →
      cancelJob store id = (false, store)) := by
  constructor
  · intro hq
    have hc : cancelJob store id =
        (true, setStatus store id JobStatus.cancelled) := by
      simp [cancelJob, hfetch, hq]
    exact ⟨hc, by rw [hc]; exact fetchJob_setStatus store id j _ hfetch⟩
  · rintro (hs | hs) <;> simp [cancelJob, hfetch, hs]

/-- Claim C7 witness: cancelling a queued job succeeds and moves it to
`cancelled`; cancelling the same job once finished fails and changes
nothing. -/
theorem cancel_only_queued_witness :
    cancelJob [cQueuedJob] "jq" =
      (true, [{ cQueuedJob with status := JobStatus.cancelled }]) ∧
    cancelJob [cFinishedJob] "jd" = (false, [cFinishedJob]) := by
  constructor
  · exact ((cancel_only_queued [cQueuedJob] "jq" cQueuedJob rfl).1 rfl).1.trans
      (by rfl)
  · exact (cancel_only_queued [cFinishedJob] "jd" cFinishedJob rfl).2
      (Or.inr rfl)

/-- The cleanup loop deletes exactly the records selected by
`shouldClean` and counts them. -/
theorem cleanOldJobsAux_eq (thr : Int) (l : List Job) :
    cleanOldJobsAux thr l =
      ((l.filter (shouldClean thr)).length,
        l.filter (fun j => !shouldClean thr j)) := by
  induction l with
  | nil => rfl
  | cons j rest ih =>
    by_cases h : shouldClean thr j = true
    · simp [cleanOldJobsAux, ih, List.filter, h]
    · simp [cleanOldJobsAux, ih, List.filter, h]

/-- Claim C8 counterexample: a failed job whose `ended_at` lies well past the
cleanup threshold is NOT removed by `clean_old_jobs` (only the finished
registry is scanned), contradicting the claim that old failed jobs are
cleaned. -/
theorem clean_old_jobs_skips_old_failed :
    cleanOldJobs [cFailedJob] 864000 7 = (0, [cFailedJob]) ∧
    cFailedJob.status = JobStatus.failed ∧
    cFailedJob.ended_at = some 0 ∧
    (0 : Int) < cleanThreshold 864000 7 := by
  refine ⟨rfl, rfl, rfl, by decide⟩

/-- Claim C8 amended: `clean_old_jobs` removes exactly the FINISHED jobs whose
`ended_at` is strictly older than the N-day threshold and returns their
count; every job that is not finished — queued, started, and also failed —
is kept regardless of age. -/
theorem clean_old_jobs_removes_exactly_old_finished
    (store : List Job) (now days : Int) :
    (cleanOldJobs store now days).2 =
      store.filter (fun j => !shouldClean (cleanThreshold now days) j) ∧
    (cleanOldJobs store now days).1 =
      (store.filter (shouldClean (cleanThreshold now days))).length ∧
    ∀ j ∈ store, j.status ≠ JobStatus.finished →
      j ∈ (cleanOldJobs store now days).2 := by
  refine ⟨?_, ?_, ?_⟩
  · rw [cleanOldJobs, cleanOldJobsAux_eq]
  · rw [cleanOldJobs, cleanOldJobsAux_eq]
  · intro j hj hstatus
    rw [cleanOldJobs, cleanOldJobsAux_eq]
    refine List.mem_filter.mpr ⟨hj, ?_⟩
    simp [shouldClean, hstatus]

/-- Claim C8 amended witness: in a broker holding an old finished, an old
failed and an old queued job, cleanup keeps the queued job. -/
theorem clean_old_jobs_witness :
    cQueuedJob ∈ (cleanOldJobs [cFinishedJob, cFailedJob, cQueuedJob]
      864000 7).2 :=
  (clean_old_jobs_removes_exactly_old_finished
    [cFinishedJob, cFailedJob, cQueuedJob] 864000 7).2.2 cQueuedJob
    (by decide) (by decide)

/-- Claim C9: on a health-check cycle, every worker of a lane that is busy on a
job running longer than the configured job timeout is flagged with a stuck
issue for that lane, and every worker whose last heartbeat is older than
the fixed 300-second staleness threshold is flagged unresponsive for that
lane.  `checkWorkerHealth` only returns the report — the embedding takes
the worker pool as read-only input and produces nothing but issue lists,
mirroring the code, which never restarts a worker. -/
theorem health_check_flags_stuck_and_stale
    (workers : Lane → List Worker) (now jobTimeout : Int) (l : Lane)
    (w : Worker) (hw : w ∈ workers l) :
    (∀ cj, w.state = WorkerState.busy → w.current_job = some cj →
      jobTimeout < now - cj.started_at →
      Issue.stuck w.name cj.id (now - cj.started_at) ∈
        checkWorkerHealth workers now jobTimeout l) ∧
    (∀ hb, w.last_heartbeat = some hb → heartbeatStaleness < now - hb →
      Issue.unresponsive w.name (now - hb) ∈
        checkWorkerHealth workers now jobTimeout l) := by
  constructor
  · intro cj hbusy hcj hdur
    refine List.mem_flatMap.mpr ⟨w, hw, ?_⟩
    simp [workerIssues, hbusy, hcj, hdur]
  · intro hb hhb hage
    refine List.mem_flatMap.mpr ⟨w, hw, ?_⟩
    unfold workerIssues
    refine List.mem_append_right _ ?_
    simp [hhb, hage]

/-- Claim C9 witness: with a job timeout of 3600s, a worker busy since instant 0
at instant 4000 with heartbeat last seen at 0 is flagged both stuck and
unresponsive on its lane. -/
theorem health_check_witness :
    Issue.stuck "w1" "j1" 4000 ∈
      checkWorkerHealth (fun _ => [cStuckWorker]) 4000 3600 Lane.high ∧
    Issue.unresponsive "w1" 4000 ∈
      checkWorkerHealth (fun _ => [cStuckWorker]) 4000 3600 Lane.high := by
  have h := health_check_flags_stuck_and_stale (fun _ => [cStuckWorker])
    4000 3600 Lane.high cStuckWorker (by decide)
  exact ⟨h.1 { id := "j1", started_at := 0 } rfl rfl (by decide),
    h.2 0 rfl (by decide)⟩

/-- Claim C5 counterexample: the submission with the non-empty task description
"find contributors of acme/widget" and the in-range limit 50 is rejected
with a 400 validation failure, because `is_valid_request` also requires
the word "github" in the description — refuting the claim that every
non-empty description with an in-range limit is accepted. -/
theorem valid_looking_request_rejected :
    recruitDevelopers "find contributors of acme/widget" 50 =
      RecruitDecision.rejected400 ∧
    ("find contributors of acme/widget" : String) ≠ "" ∧
    (1 : Int) ≤ 50 ∧ (50 : Int) ≤ 100 := by
  refine ⟨by decide, by decide, by decide, by decide⟩

/-- Claim C5 amended: a submission is accepted iff its task description contains
"github" (case-insensitively) and its limit lies in 1..100; any other
submission — in particular one with an empty description or an
out-of-range limit, but also any non-empty description lacking "github" —
is rejected with a 400 validation failure before any processing. -/
theorem submission_validation_requires_github_keyword
    (desc : String) (limit : Int) :
    (recruitDevelopers desc limit = RecruitDecision.accepted ↔
      containsGithub desc = true ∧ 1 ≤ limit ∧ limit ≤ 100) ∧
    (desc = "" → recruitDevelopers desc limit = RecruitDecision.rejected400) := by
  constructor
  · have hsplit : recruitDevelopers desc limit = RecruitDecision.accepted ↔
        is_valid_request desc limit = true := by
      unfold recruitDevelopers
      by_cases h : is_valid_request desc limit = true
      · simp [h]
      · simp [h]
    rw [hsplit]
    simp [is_valid_request, Bool.and_eq_true, decide_eq_true_eq, and_assoc]
  · intro h
    subst h
    rfl

/-- Claim C5 amended witness: the empty description is rejected. -/
theorem submission_validation_witness :
    recruitDevelopers "" 7 = RecruitDecision.rejected400 :=
  (submission_validation_requires_github_keyword "" 7).2 rfl

/-- Claim C6 counterexample: two `save_state` calls for the same session that
observe the same clock reading write the same `(session_id, timestamp)`
key, and the second `put_item` REPLACES the first snapshot — the stored
history afterwards no longer contains snapshot A, refuting the claim that
the append never overwrites an existing pair. -/
theorem save_state_same_timestamp_overwrites :
    saveState [] "s1" "snapshotA" 1000 none = [cItemA] ∧
    saveState (saveState [] "s1" "snapshotA" 1000 none)
        "s1" "snapshotB" 1000 none =
      [{ session_id := "s1", timestamp := 1000, state := "snapshotB",
         ttl := 87400 }] ∧
    cItemA ∉ saveState (saveState [] "s1" "snapshotA" 1000 none)
        "s1" "snapshotB" 1000 none := by
  refine ⟨by decide, by decide, by decide⟩

/-- Claim C6 amended: provided the clock reading of a `save_state` call is fresh
for the session — no stored row already carries the same
`(session_id, timestamp)` key — the write appends a new row, every
previously stored snapshot survives unchanged, and pairwise-distinct keys
remain pairwise distinct.  Distinctness of `(sessionId, version)` therefore
holds exactly when successive writes observe distinct timestamps, not
unconditionally. -/
theorem save_state_appends_when_timestamp_fresh
    (table : List DynamoStateItem) (sid st : String) (now : Int)
    (ttl : Option Int)
    (hfresh : ∀ it ∈ table, ¬(it.session_id = sid ∧ it.timestamp = now)) :
    saveState table sid st now ttl =
      table ++ [createStatePutParams sid st now ttl] ∧
    (List.Pairwise
        (fun a b : DynamoStateItem =>
          ¬(a.session_id = b.session_id ∧ a.timestamp = b.timestamp))
        table →
      List.Pairwise
        (fun a b : DynamoStateItem =>
          ¬(a.session_id = b.session_id ∧ a.timestamp = b.timestamp))
        (saveState table sid st now ttl)) := by
  have hany : (table.any
      (fun it => sameKey it (createStatePutParams sid st now ttl))) = false := by
    rw [List.any_eq_false]
    intro it hit
    have h := hfresh it hit
    simp only [sameKey, createStatePutParams, Bool.and_eq_true, beq_iff_eq]
    tauto
  have happ : saveState table sid st now ttl =
      table ++ [createStatePutParams sid st now ttl] := by
    unfold saveState putItem
    rw [hany]
    simp
  refine ⟨happ, ?_⟩
  intro hpw
  rw [happ]
  refine List.pairwise_append.mpr ⟨hpw, List.pairwise_singleton _ _, ?_⟩
  intro a ha b hb
  have hb1 : b = createStatePutParams sid st now ttl := by
    simpa using hb
  subst hb1
  have h := hfresh a ha
  simp only [createStatePutParams]
  tauto

/-- Claim C6 amended witness: a write with a fresh timestamp appends and keeps
the earlier snapshot. -/
theorem save_state_appends_witness :
    saveState [cItemA] "s1" "snapshotB" 2000 none =
      [cItemA,
       { session_id := "s1", timestamp := 2000, state := "snapshotB",
         ttl := 88400 }] :=
  ((save_state_appends_when_timestamp_fresh [cItemA] "s1" "snapshotB" 2000
      none (by decide)).1).trans (by decide)

/-- When the fallback oracle does not raise for a contributor, running its
scheduled task yields exactly the value `taskValue` attaches to it. -/
theorem runTask_scheduleTask_ok
    (direct search : String → Except String (Option LinkedInProfile))
    (g : GitHubContributor)
    (hs : truthyStr g.linkedin_url = false →
      ∃ v, search (nameOrUsername g) = Except.ok v) :
    runTask direct search (scheduleTask g) =
      Except.ok (taskValue direct search g) := by
  unfold taskValue
  cases hurl : g.linkedin_url with
  | none =>
    obtain ⟨v, hv⟩ := hs (by simp [truthyStr, hurl])
    simp [scheduleTask, runTask, hurl, hv]
  | some url =>
    by_cases hemp : url = ""
    · subst hemp
      obtain ⟨v, hv⟩ := hs (by simp [truthyStr, hurl])
      simp [scheduleTask, runTask, hurl, hv]
    · simp [scheduleTask, runTask, hurl, hemp]

/-- When no fallback fetch raises and the database saves succeed, the
enrichment phase completes with one record per contributor carrying its
own fetched value. -/
theorem executeTask_eq_of_fallback_ok
    (direct search : String → Except String (Option LinkedInProfile))
    (saveOk : DeveloperProfile → Bool) (gs : List GitHubContributor)
    (hsearch : ∀ g ∈ gs, truthyStr g.linkedin_url = false →
      ∃ v, search (nameOrUsername g) = Except.ok v)
    (hsave : ∀ p, saveOk p = true) :
    executeTaskLinkedInPhase direct search saveOk gs =
      Except.ok (gs.map (fun g =>
        { github_data := g, linkedin_data := taskValue direct search g })) := by
  induction gs with
  | nil => rfl
  | cons g rest ih =>
    have hg := runTask_scheduleTask_ok direct search g
      (hsearch g (by simp))
    have hrest := ih (fun g' hg' hraw => hsearch g' (by simp [hg']) hraw)
    unfold executeTaskLinkedInPhase at hrest ⊢
    cases hgather : gatherAll ((linkedinTasks rest).map (runTask direct search)) with
    | error e => rw [hgather] at hrest; exact absurd hrest (by simp)
    | ok ls =>
      rw [hgather] at hrest
      simp only [Except.ok.injEq] at hrest
      simp only [linkedinTasks, List.map_cons, List.map_map] at hgather ⊢
      simp only [gatherAll, hg]
      rw [hgather]
      simp [processProfiles, hsave, hrest]

/-- Claim C2 counterexample: with two contributors — Alice carrying a direct
LinkedIn url and Bob on the fallback name-based path — an exception raised
during Bob's fallback fetch (the login `TimeoutException`, which escapes
`find_profile`) propagates out of `asyncio.gather` and aborts the whole
batch: `execute_task` raises and the final payload contains NO entity at
all, refuting the claim that a fallback-path exception degrades only that
entity's record. -/
theorem coordinator_fallback_login_aborts_batch :
    executeTaskLinkedInPhase (fun _ => Except.ok (some cLiA))
        (fun _ => Except.error "TimeoutException: LinkedIn login failed")
        (fun _ => true) [cGhA, cGhB] =
      Except.error "TimeoutException: LinkedIn login failed" ∧
    cGhA.linkedin_url = some "https://www.linkedin.com/in/alice" ∧
    cGhB.linkedin_url = none := by
  refine ⟨rfl, rfl, rfl⟩

/-- Claim C2 amended: exceptions in the direct-url path are fault-isolated per
entity (`_get_linkedin_from_url` degrades them to no secondary data), and
so are search failures inside `find_profile`; but only when no fallback
fetch RAISES (the uncaught case is the re-raised login failure) does the
batch survive, in which case the final payload contains every contributor
exactly once, in order, each with its own fetched (possibly absent)
secondary data. -/
theorem coordinator_fault_isolation_when_fallback_ok
    (direct search : String → Except String (Option LinkedInProfile))
    (saveOk : DeveloperProfile → Bool) (gs : List GitHubContributor)
    (hsearch : ∀ g ∈ gs, truthyStr g.linkedin_url = false →
      ∃ v, search (nameOrUsername g) = Except.ok v)
    (hsave : ∀ p, saveOk p = true) :
    executeTaskLinkedInPhase direct search saveOk gs =
      Except.ok (gs.map (fun g =>
        { github_data := g, linkedin_data := taskValue direct search g })) ∧
    (gs.map (fun g =>
      ({ github_data := g, linkedin_data := taskValue direct search g } : DeveloperProfile))).map
        DeveloperProfile.github_data = gs := by
  refine ⟨executeTask_eq_of_fallback_ok direct search saveOk gs hsearch hsave, ?_⟩
  rw [List.map_map]
  exact (List.map_congr_left (fun a _ => rfl)).trans (List.map_id gs)

/-- Claim C2 amended witness: with every direct fetch raising and the fallback
search returning nothing, the batch still completes and both contributors
appear, each degraded to no secondary data. -/
theorem coordinator_fault_isolation_witness :
    executeTaskLinkedInPhase (fun _ => Except.error "boom")
        (fun _ => Except.ok none) (fun _ => true) [cGhA, cGhB] =
      Except.ok [{ github_data := cGhA, linkedin_data := none },
                 { github_data := cGhB, linkedin_data := none }] :=
  ((coordinator_fault_isolation_when_fallback_ok (fun _ => Except.error "boom")
      (fun _ => Except.ok none) (fun _ => true) [cGhA, cGhB]
      (fun _ _ _ => ⟨none, rfl⟩) (fun _ => rfl)).1).trans (by rfl)

/-- An entry found in `linkedin_profiles_map` is an error-free entry of
the LinkedIn result whose url is the lookup key. -/
theorem linkedinProfilesMap_spec (l : Option LinkedInResult) (url : String)
    (p : LIProfileEntry) (h : linkedinProfilesMap l url = some p) :
    p ∈ liProfiles l ∧ p.error = none ∧ p.linkedin_url = url := by
  unfold linkedinProfilesMap at h
  have hmem := List.mem_of_find?_eq_some h
  have hpred := List.find?_some h
  rw [List.mem_reverse] at hmem
  have hmem2 := List.mem_filter.mp hmem
  refine ⟨hmem2.1, ?_, by simpa using hpred⟩
  simpa [Option.isNone_iff_eq_none] using hmem2.2

/-- Claim C3 amended: in the NEW coordinator's merge, attachment is by URL join
key — whenever a merged profile carries `linkedin_info`, its url is the
entity's own linkedin reference and its content comes from an error-free
LinkedIn result entry whose `linkedin_url` equals that reference.  The OLD
pipeline's merge, `DataProcessor.process_profiles`, instead pairs
primaries with secondaries positionally (see the counterexample). -/
theorem merge_attaches_by_url_join (g : GithubResult)
    (l : Option LinkedInResult) (mp : MergedProfile)
    (hmp : mp ∈ (mergeResults g l).profiles) (info : LinkedInInfo)
    (hinfo : mp.linkedin_info = some info) :
    mp.social_urls.linkedin = some info.url ∧
    ∃ p ∈ liProfiles l, p.error = none ∧ p.linkedin_url = info.url ∧
      info.current_position = p.current_position ∧
      info.company = p.company ∧ info.location = p.location ∧
      info.experience = p.experience := by
  obtain ⟨gp, hgp, hmk⟩ : ∃ gp ∈ g.profiles, mergeOne l gp = mp := by
    simpa [mergeResults] using hmp
  subst hmk
  cases hurl : gp.social_urls.linkedin with
  | none =>
    exfalso
    have hnone : (mergeOne l gp).linkedin_info = none := by
      simp [mergeOne, hurl]
    rw [hnone] at hinfo
    exact Option.noConfusion hinfo
  | some url =>
    cases hfind : linkedinProfilesMap l url with
    | none =>
      exfalso
      have hnone : (mergeOne l gp).linkedin_info = none := by
        simp [mergeOne, hurl, hfind]
      rw [hnone] at hinfo
      exact Option.noConfusion hinfo
    | some p =>
      have hii : (mergeOne l gp).linkedin_info =
          some { url := url, current_position := p.current_position,
                 company := p.company, location := p.location,
                 experience := p.experience } := by
        simp [mergeOne, hurl, hfind]
      rw [hii] at hinfo
      have hinfoeq := Option.some.inj hinfo
      subst hinfoeq
      have hspec := linkedinProfilesMap_spec l url p hfind
      refine ⟨?_, p, hspec.1, hspec.2.1, hspec.2.2, rfl, rfl, rfl, rfl⟩
      show gp.social_urls.linkedin = some url
      exact hurl

/-- Claim C3 witness: the merged profile for Alice carries exactly the
error-free LinkedIn entry whose url equals her own reference. -/
theorem merge_attaches_by_url_join_witness :
    cMpA.social_urls.linkedin = some cInfoA.url ∧
    ∃ p ∈ liProfiles (some cLiRes), p.error = none ∧
      p.linkedin_url = cInfoA.url ∧
      cInfoA.current_position = p.current_position ∧
      cInfoA.company = p.company ∧ cInfoA.location = p.location ∧
      cInfoA.experience = p.experience :=
  merge_attaches_by_url_join cGhRes (some cLiRes) cMpA
    (by decide) cInfoA (by decide)

/-- Claim C3 counterexample: `DataProcessor.process_profiles` attaches
secondaries positionally — given the secondary list in swapped order, the
profile zipped onto Alice is Bob's, whose url differs from Alice's own
linkedin reference, refuting "never by positional index" for the old
pipeline's merge. -/
theorem processProfiles_attaches_positionally :
    processProfiles (fun _ => true) [cGhA, cGhB2] [some cLiB, some cLiA] =
      [{ github_data := cGhA, linkedin_data := some cLiB },
       { github_data := cGhB2, linkedin_data := some cLiA }] ∧
    cGhA.linkedin_url = some "https://www.linkedin.com/in/alice" ∧
    cLiB.profile_url = "https://www.linkedin.com/in/bob" ∧
    cLiB.profile_url ≠ "https://www.linkedin.com/in/alice" := by
  refine ⟨rfl, rfl, rfl, by decide⟩
